import Mathlib

set_option maxHeartbeats 1000000

/-!
Verification of the checkpoint-and-aggregate pipeline of
`src/analysis/user_profile_analyzer.py` (class `UserProfileAnalyzer`).

The shallow embedding models:
  * the JSON-ish dictionaries the analyzer builds (`JVal`, `JObj`);
  * the batcher `split_into_batches`;
  * the grouper `load_and_group_data` (its row loop is `group_rows`);
  * the oracle boundary (`OResp`, `OEnv`): each `ollama` chat call is indexed
    by a running call counter, and JSON parsing of a response (including the
    fenced-code-block stripping) is an abstract function
    `parse : String → Option JObj`;
  * the batch analyzer `analyze_batch`, the per-game aggregator
    `aggregate_game_profiles`, the global aggregator
    `generate_overall_profile`;
  * the checkpoint document `CombinedProfiles` with the save helpers
    (`save_batch_results`, `save_game_profile`, `update_session_progress`),
    session resumption (`load_existing_session`) over a store of previously
    written files, and the driver `analyze_user_profiles`.

The driver records a trace of `Event`s: one event per oracle invocation
(tagged with its pipeline stage) and one `Event.save` per persisted write of
the whole checkpoint document (`save_combined_profiles` in the source), in
program order.  Durability and call-counting claims are statements about
this trace.
-/

namespace GameInsight

/-- A JSON value as far as the analyzer's dictionaries need: the required
fields are a string (`summary`) or a list of strings (`pros`/`cons`/`tags`). -/
inductive JVal where
  | str (s : String)
  | arr (l : List String)
deriving DecidableEq, Repr

/-- A parsed JSON object: keys with values.  Python dicts have unique keys,
so first-binding-wins lookup is faithful. -/
abbrev JObj := List (String × JVal)

/-- Key lookup in a Python dict (`obj[f]` / `f in obj`). -/
def jlookup : JObj → String → Option JVal
  | [], _ => none
  | (k, v) :: rest, f => if k = f then some v else jlookup rest f

/-- `obj.get(f, d)` of a Python dict. -/
def jget (obj : JObj) (f : String) (d : JVal) : JVal :=
  (jlookup obj f).getD d

/-- One iteration of the required-field loop:
`if field not in profile_data: profile_data[field] = default`. -/
def fillField (obj : JObj) (f : String) (d : JVal) : JObj :=
  if (jlookup obj f).isSome then obj else obj ++ [(f, d)]

/-- The `required_fields` loop of `aggregate_game_profiles` and
`generate_overall_profile`: a missing `summary` becomes `""`, missing
`pros`/`cons`/`tags` become `[]`. -/
def fill_required (obj : JObj) : JObj :=
  fillField (fillField (fillField (fillField obj
    "summary" (.str "")) "pros" (.arr [])) "cons" (.arr [])) "tags" (.arr [])

/-- `split_into_batches`: the loop
`for i in range(0, len(reviews), batch_size): batches.append(reviews[i:i+batch_size])`.
`List.range' 0 c B` is `range(0, n, B)` when `c` is the iteration count
`(n + B - 1) / B`, and the slice `reviews[i:i+B]` is `(take B) ∘ (drop i)`. -/
def split_into_batches (B : Nat) (reviews : List String) : List (List String) :=
  (List.range' 0 ((reviews.length + B - 1) / B) B).map
    (fun i => ((reviews.drop i).take B))

/-- `list.isPrefixOf`-style check on character lists (structural, so that
concrete runs evaluate inside the kernel). -/
def isPrefixChars : List Char → List Char → Bool
  | [], _ => true
  | _ :: _, [] => false
  | a :: as, b :: bs => a == b && isPrefixChars as bs

/-- Python `str.startswith`. -/
def str_startswith (s p : String) : Bool := isPrefixChars p.data s.data

/-- Python `str.endswith`. -/
def str_endswith (s p : String) : Bool := isPrefixChars p.data.reverse s.data.reverse

/-- Lexicographic comparison of character lists: Python string `<`,
used by the filename sort of `load_existing_session`. -/
def charListLt : List Char → List Char → Bool
  | [], [] => false
  | [], _ :: _ => true
  | _ :: _, [] => false
  | a :: as, b :: bs =>
    if a.toNat < b.toNat then true
    else if b.toNat < a.toNat then false
    else charListLt as bs

/-- Python string `<`. -/
def str_lt (s t : String) : Bool := charListLt s.data t.data

/-- Python `str.isspace()` on one character: the Unicode whitespace set that
`str.strip()` removes (U+0009–U+000D, U+001C–U+001F, space, U+0085, U+00A0,
U+1680, U+2000–U+200A, U+2028, U+2029, U+202F, U+205F, U+3000). -/
def pyIsSpace (c : Char) : Bool :=
  ([9, 10, 11, 12, 13, 28, 29, 30, 31, 32, 133, 160, 5760, 8192, 8193, 8194,
    8195, 8196, 8197, 8198, 8199, 8200, 8201, 8202, 8232, 8233, 8239, 8287,
    12288] : List Nat).contains c.toNat

/-- Python `str.strip()`: drop leading and trailing Unicode whitespace. -/
def pyStrip (s : String) : String :=
  String.mk (((s.data.dropWhile pyIsSpace).reverse.dropWhile
    pyIsSpace).reverse)

/-- Python `str(cell)` on a cell of the data frame: a present cell is its
text, a missing cell is the float NaN that `pandas` yields, whose `str()` is
the literal text `"nan"`. -/
def pyStr : Option String → String
  | some s => s
  | none => "nan"

/-- One source row, as the `iterrows` loop sees it: each required column's
cell is either present text or missing (`none`, a `pandas` NaN). -/
structure Row where
  game_name : Option String
  review : Option String
deriving DecidableEq, Repr

/-- `games_data[game_name].append(review_content)` on a `defaultdict(list)`
kept in insertion order. -/
def addReview : List (String × List String) → String → String → List (String × List String)
  | [], g, r => [(g, [r])]
  | (g', rs) :: rest, g, r =>
    if g' = g then (g', rs ++ [r]) :: rest else (g', rs) :: addReview rest g r

/-- One iteration of the row loop of `load_and_group_data`: trim both fields,
silently skip the row if either is empty after trimming, otherwise append to
the game's list. -/
def addRow (m : List (String × List String)) (row : Row) : List (String × List String) :=
  let g := pyStrip (pyStr row.game_name)
  let r := pyStrip (pyStr row.review)
  if g ≠ "" ∧ r ≠ "" then addReview m g r else m

/-- The row loop of `load_and_group_data`. -/
def group_rows (rows : List Row) : List (String × List String) :=
  rows.foldl addRow []

/-- Lookup in the grouped data (a missing game yields `[]`). -/
def groupGet : List (String × List String) → String → List String
  | [], _ => []
  | (g', rs) :: rest, g => if g' = g then rs else groupGet rest g

/-- `load_and_group_data`: check the required columns against the frame's
schema (`ValueError` if any is missing — surfaced by the method's own
`except` as a failed load), otherwise group the rows. -/
def load_and_group_data (cols : List String) (rows : List Row) :
    Except String (List (String × List String)) :=
  let missing := (["游戏名称", "长评内容"]).filter (fun c => !(cols.contains c))
  if missing.isEmpty then Except.ok (group_rows rows)
  else Except.error ("缺少必需列: " ++ String.intercalate ", " missing)

/-- Outcome of one oracle (`ollama` chat) call: an exception, or a response
content together with the elapsed wall-clock time of the call. -/
inductive OResp where
  | err (e : String)
  | ok (content : String) (dur : Nat)
deriving DecidableEq, Repr

/-- The oracle boundary: `oracle n` is the outcome of the `n`-th chat call of
the session (counting from 0), and `parse` abstracts `json.loads` after the
fenced-code-block regex strip (`none` = `json.JSONDecodeError`). -/
structure OEnv where
  oracle : Nat → OResp
  parse : String → Option JObj

/-- A batch result dictionary (`analyze_batch`'s return value). -/
structure BatchResult where
  game_name : String
  batch_num : Nat
  review_count : Nat
  analysis : String
  processing_time : Nat
  status : String
deriving DecidableEq, Repr

/-- `analyze_batch`, given the outcome of its one oracle call. -/
def analyze_batch (resp : OResp) (game_name : String)
    (batch_reviews : List String) (batch_num : Nat) : BatchResult :=
  match resp with
  | .ok content dur =>
    { game_name := game_name, batch_num := batch_num,
      review_count := batch_reviews.length, analysis := content,
      processing_time := dur, status := "success" }
  | .err e =>
    { game_name := game_name, batch_num := batch_num,
      review_count := batch_reviews.length, analysis := "分析失败: " ++ e,
      processing_time := 0, status := "failed" }

/-- A per-game profile dictionary.  The source builds plain dicts whose key
set depends on the outcome (a failed profile has only `game_name`, `status`,
`error`), so every outcome-dependent key is an `Option`. -/
structure GameProfile where
  game_name : String
  status : String
  error : Option String := none
  total_reviews : Option Nat := none
  batch_count : Option Nat := none
  summary : Option JVal := none
  pros : Option JVal := none
  cons : Option JVal := none
  tags : Option JVal := none
  processing_time : Option Nat := none
deriving DecidableEq, Repr

/-- The overall (global) profile dictionary, same convention. -/
structure OverallProfile where
  status : String
  error : Option String := none
  total_games : Option Nat := none
  total_reviews : Option Nat := none
  summary : Option JVal := none
  pros : Option JVal := none
  cons : Option JVal := none
  tags : Option JVal := none
  processing_time : Option Nat := none
deriving DecidableEq, Repr

/-- `session_info` of the checkpoint document (`excel_file` is absent until
`analyze_user_profiles` first writes it). -/
structure SessionInfo where
  timestamp : String
  model : String
  batch_size : Nat
  status : String
  excel_file : Option String := none
deriving DecidableEq, Repr

/-- `statistics` of the checkpoint document. -/
structure Statistics where
  total_games : Nat
  total_reviews : Nat
  completed_games : Nat
  total_processing_time : Nat
deriving DecidableEq, Repr

/-- The checkpoint document (`combined_profiles`): the sole persisted
aggregate root. -/
structure CombinedProfiles where
  session_info : SessionInfo
  statistics : Statistics
  game_profiles : List (String × GameProfile)
  overall_profile : Option OverallProfile
  batch_results : List BatchResult
deriving DecidableEq, Repr

/-- Python dict assignment `m[g] = p` (replace in place or append). -/
def dictInsert : List (String × GameProfile) → String → GameProfile → List (String × GameProfile)
  | [], g, p => [(g, p)]
  | (g', p') :: rest, g, p =>
    if g' = g then (g, p) :: rest else (g', p') :: dictInsert rest g p

/-- Trace events: one per oracle call (tagged by pipeline stage) and one per
persisted whole-document write (`save_combined_profiles`). -/
inductive Event where
  | callBatch (game : String) (batch_num : Nat)
  | callGameAgg (game : String)
  | callOverall
  | save (doc : CombinedProfiles)
deriving DecidableEq, Repr

/-- The shape of an event, forgetting the saved document. -/
inductive ETag where
  | callBatch (game : String) (batch_num : Nat)
  | callGameAgg (game : String)
  | callOverall
  | save
deriving DecidableEq, Repr

def Event.tag : Event → ETag
  | .callBatch g i => .callBatch g i
  | .callGameAgg g => .callGameAgg g
  | .callOverall => .callOverall
  | .save _ => .save

/-- Whether an event is an oracle invocation (as opposed to a persist). -/
def ETag.isCall : ETag → Bool
  | .save => false
  | _ => true

/-- `aggregate_game_profiles`.  Returns the profile, the next oracle-call
index, and the oracle-call events it performed. -/
def aggregate_game_profiles (env : OEnv) (k : Nat) (game_name : String)
    (batch_results : List BatchResult) : GameProfile × Nat × List Event :=
  let successful_batches := batch_results.filter (fun r => r.status == "success")
  if successful_batches.isEmpty then
    ({ game_name := game_name, status := "failed",
       error := some "所有批次分析都失败了" }, k, [])
  else
    match env.oracle k with
    | .err e =>
      ({ game_name := game_name, status := "failed",
         error := some ("聚合失败: " ++ e) }, k + 1, [Event.callGameAgg game_name])
    | .ok content dur =>
      let total := (successful_batches.map (fun r => r.review_count)).sum
      match env.parse content with
      | some pd0 =>
        let pd := fill_required pd0
        ({ game_name := game_name, status := "success",
           total_reviews := some total,
           batch_count := some successful_batches.length,
           summary := some (jget pd "summary" (.str "")),
           pros := some (jget pd "pros" (.arr [])),
           cons := some (jget pd "cons" (.arr [])),
           tags := some (jget pd "tags" (.arr [])),
           processing_time := some dur }, k + 1, [Event.callGameAgg game_name])
      | none =>
        ({ game_name := game_name, status := "success",
           total_reviews := some total,
           batch_count := some successful_batches.length,
           summary := some (.str ("基于" ++ toString total ++ "条评论的游戏画像")),
           pros := some (.arr ["用户评价积极"]),
           cons := some (.arr ["需要更多反馈"]),
           tags := some (.arr ["用户评价", "游戏体验"]),
           processing_time := some dur }, k + 1, [Event.callGameAgg game_name])

/-- `generate_overall_profile`. -/
def generate_overall_profile (env : OEnv) (k : Nat)
    (game_profiles : List GameProfile) : OverallProfile × Nat × List Event :=
  let successful_profiles := game_profiles.filter (fun p => p.status == "success")
  if successful_profiles.isEmpty then
    ({ status := "failed", error := some "没有成功的游戏画像可聚合" }, k, [])
  else
    match env.oracle k with
    | .err e =>
      ({ status := "failed",
         error := some ("整体画像生成失败: " ++ e) }, k + 1, [Event.callOverall])
    | .ok content dur =>
      let tg := successful_profiles.length
      let tr := (successful_profiles.map (fun p => p.total_reviews.getD 0)).sum
      match env.parse content with
      | some pd0 =>
        let pd := fill_required pd0
        ({ status := "success", total_games := some tg, total_reviews := some tr,
           summary := some (jget pd "summary" (.str "")),
           pros := some (jget pd "pros" (.arr [])),
           cons := some (jget pd "cons" (.arr [])),
           tags := some (jget pd "tags" (.arr [])),
           processing_time := some dur }, k + 1, [Event.callOverall])
      | none =>
        ({ status := "success", total_games := some tg, total_reviews := some tr,
           summary := some (.str ("基于" ++ toString tg ++ "款游戏，" ++
             toString tr ++ "条评论的整体用户画像")),
           pros := some (.arr ["用户评价积极"]),
           cons := some (.arr ["需要更多反馈"]),
           tags := some (.arr ["用户评价", "游戏体验"]),
           processing_time := some dur }, k + 1, [Event.callOverall])

/-- `save_batch_results`: extend the checkpoint's `batch_results` with the
per-entity list, then persist the whole document. -/
def save_batch_results (doc : CombinedProfiles) (brs : List BatchResult) :
    CombinedProfiles × List Event :=
  let d := { doc with batch_results := doc.batch_results ++ brs }
  (d, [Event.save d])

/-- `save_game_profile`: only a `success` profile is written into
`game_profiles` (and the statistics updated and the document persisted);
a failed profile writes nothing. -/
def save_game_profile (doc : CombinedProfiles) (p : GameProfile) :
    CombinedProfiles × List Event :=
  if p.status == "success" then
    let d := { doc with
      game_profiles := dictInsert doc.game_profiles p.game_name p,
      statistics := { doc.statistics with
        total_reviews := doc.statistics.total_reviews + p.total_reviews.getD 0,
        total_processing_time :=
          doc.statistics.total_processing_time + p.processing_time.getD 0 } }
    (d, [Event.save d])
  else (doc, [])

/-- `update_session_progress`: bump `completed_games` when a game name was
passed, mark the session completed when `overall_completed`, then persist. -/
def update_session_progress (doc : CombinedProfiles) (gameDone : Bool)
    (overallCompleted : Bool) : CombinedProfiles × List Event :=
  let d1 := if gameDone then
      { doc with statistics := { doc.statistics with
          completed_games := doc.statistics.completed_games + 1 } }
    else doc
  let d2 := if overallCompleted then
      { d1 with session_info := { d1.session_info with status := "completed" } }
    else d1
  (d2, [Event.save d2])

/-- Result of the inner batch loop of `analyze_user_profiles`. -/
structure BatchesOut where
  results : List BatchResult
  doc : CombinedProfiles
  k : Nat
  time : Nat
  events : List Event
deriving Repr

/-- The inner batch loop of `analyze_user_profiles` (Step 2): one oracle call
per batch; each result is appended both to the local `batch_results` list and
— through the `all_batch_results` alias — to the checkpoint document's
`batch_results` list, with no persist inside the loop. -/
def process_batches (env : OEnv) (game_name : String) :
    Nat → List (List String) → Nat → CombinedProfiles → BatchesOut
  | k, [], _, doc => { results := [], doc := doc, k := k, time := 0, events := [] }
  | k, b :: rest, i, doc =>
    let result := analyze_batch (env.oracle k) game_name b i
    let doc1 := { doc with batch_results := doc.batch_results ++ [result] }
    let out := process_batches env game_name (k + 1) rest (i + 1) doc1
    { results := result :: out.results, doc := out.doc, k := out.k,
      time := result.processing_time + out.time,
      events := Event.callBatch game_name i :: out.events }

/-- Result of the per-game loop (and of one of its iterations). -/
structure StepOut where
  doc : CombinedProfiles
  gps : List GameProfile
  k : Nat
  time : Nat
  events : List Event
deriving Repr

/-- One iteration of the per-game loop of `analyze_user_profiles`: batch the
reviews, analyze every batch, `save_batch_results`, aggregate the game,
`save_game_profile`, `update_session_progress`. -/
def process_one_game (env : OEnv) (B : Nat)
    (games_data : List (String × List String)) (k : Nat)
    (doc : CombinedProfiles) (gps : List GameProfile) (t : Nat)
    (game_name : String) : StepOut :=
  let reviews := groupGet games_data game_name
  let batches := split_into_batches B reviews
  let bout := process_batches env game_name k batches 1 doc
  let sb := save_batch_results bout.doc bout.results
  let agg := aggregate_game_profiles env bout.k game_name bout.results
  let profile := agg.1
  let sg := save_game_profile sb.1 profile
  let up := update_session_progress sg.1 true false
  { doc := up.1, gps := gps ++ [profile], k := agg.2.1,
    time := t + bout.time + profile.processing_time.getD 0,
    events := bout.events ++ sb.2 ++ agg.2.2 ++ sg.2 ++ up.2 }

/-- The per-game loop of `analyze_user_profiles` over the remaining games. -/
def process_games (env : OEnv) (B : Nat)
    (games_data : List (String × List String)) :
    Nat → List String → CombinedProfiles → List GameProfile → Nat → StepOut
  | k, [], doc, gps, t => { doc := doc, gps := gps, k := k, time := t, events := [] }
  | k, g :: rest, doc, gps, t =>
    let s := process_one_game env B games_data k doc gps t g
    let out := process_games env B games_data s.k rest s.doc s.gps s.time
    { out with events := s.events ++ out.events }

/-- The file with the lexicographically greatest name among the
`combined_profiles_*.json` files of the save directory: this is what
`existing_files.sort(reverse=True); existing_files[0]` selects. -/
def latest_checkpoint (store : List (String × CombinedProfiles)) :
    Option (String × CombinedProfiles) :=
  (store.filter (fun p =>
      str_startswith p.1 "combined_profiles_" && str_endswith p.1 ".json")).foldl
    (fun acc p =>
      match acc with
      | none => some p
      | some q => if str_lt q.1 p.1 then some p else some q) none

/-- `load_existing_session`: take the single most recent checkpoint file and
reuse it iff its `session_info.excel_file` equals the current input path. -/
def load_existing_session (excel_file : String)
    (store : List (String × CombinedProfiles)) :
    Option (String × CombinedProfiles) :=
  match latest_checkpoint store with
  | none => none
  | some (name, d) =>
    if d.session_info.excel_file = some excel_file then some (name, d) else none

/-- The document the session starts from: the reused checkpoint when
`load_existing_session` succeeded, else the analyzer's fresh initial
document. -/
def resumed_doc (store : List (String × CombinedProfiles))
    (init : CombinedProfiles) (excel_file : String) : CombinedProfiles :=
  match load_existing_session excel_file store with
  | some p => p.2
  | none => init

/-- Steps 4–5 of `analyze_user_profiles`: generate the overall profile when
the checkpoint has none (persisting it only on success), then write the final
`total_processing_time` and persist.  Returns the final document and the
events of this phase. -/
def finish_run (env : OEnv) (pout : StepOut) : CombinedProfiles × List Event :=
  match pout.doc.overall_profile with
  | none =>
    let ov := generate_overall_profile env pout.k pout.gps
    let op := ov.1
    let t2 := pout.time + op.processing_time.getD 0
    if op.status == "success" then
      let d4 := { pout.doc with overall_profile := some op }
      let up := update_session_progress d4 false true
      let d6 := { up.1 with statistics :=
        { up.1.statistics with total_processing_time := t2 } }
      (d6, ov.2.2 ++ up.2 ++ [Event.save d6])
    else
      let d6 := { pout.doc with statistics :=
        { pout.doc.statistics with total_processing_time := t2 } }
      (d6, ov.2.2 ++ [Event.save d6])
  | some _ =>
    let d6 := { pout.doc with statistics :=
      { pout.doc.statistics with total_processing_time := pout.time } }
    (d6, [Event.save d6])

/-- Result of a whole run of `analyze_user_profiles`: the returned status,
the final in-memory checkpoint document, and the event trace. -/
structure RunOut where
  status : String
  doc : CombinedProfiles
  events : List Event
deriving Repr

/-- `analyze_user_profiles`: resume or create a session, load and group the
data, process the remaining games, then generate the overall profile if it is
not already present, and write the final statistics. -/
def analyze_user_profiles (env : OEnv) (store : List (String × CombinedProfiles))
    (init : CombinedProfiles) (excel_file : String) (cols : List String)
    (rows : List Row) (B : Nat) : RunOut :=
  let doc0 := resumed_doc store init excel_file
  let doc1 := { doc0 with session_info :=
    { doc0.session_info with excel_file := some excel_file } }
  let evs0 := [Event.save doc1]
  match load_and_group_data cols rows with
  | .error _ => { status := "failed", doc := doc1, events := evs0 }
  | .ok games_data =>
    if games_data.isEmpty then { status := "failed", doc := doc1, events := evs0 }
    else
      let doc2 := { doc1 with statistics :=
        { doc1.statistics with total_games := games_data.length } }
      let evs1 := evs0 ++ [Event.save doc2]
      let completed := doc2.game_profiles.map Prod.fst
      let remaining := (games_data.map Prod.fst).filter
        (fun g => !(completed.contains g))
      let pout := process_games env B games_data 0 remaining doc2
        (doc2.game_profiles.map Prod.snd) doc2.statistics.total_processing_time
      let fin := finish_run env pout
      { status := "success", doc := fin.1, events := evs1 ++ pout.events ++ fin.2 }

/-- The reviews the grouper should associate with game `g`: the trimmed
review texts, in original order, of exactly the rows whose trimmed name is
`g` and whose two fields are non-empty after trimming. -/
def groupedRows (rows : List Row) (g : String) : List String :=
  rows.filterMap (fun row =>
    if pyStrip (pyStr row.game_name) = g ∧ pyStrip (pyStr row.game_name) ≠ "" ∧
        pyStrip (pyStr row.review) ≠ ""
    then some (pyStrip (pyStr row.review)) else none)

/-! Concrete fixtures used by witnesses and counterexamples. -/

/-- An oracle that always answers, with a parser that always succeeds on an
empty object. -/
def okEnv : OEnv := { oracle := fun _ => .ok "resp" 0, parse := fun _ => some [] }

/-- The fresh initial document built by `__init__`. -/
def initDoc : CombinedProfiles :=
  { session_info :=
      { timestamp := "20250101_000000", model := "llama3.2",
        batch_size := 20, status := "in_progress" },
    statistics :=
      { total_games := 0, total_reviews := 0, completed_games := 0,
        total_processing_time := 0 },
    game_profiles := [], overall_profile := none, batch_results := [] }

/-- The two required columns. -/
def reqCols : List String := ["游戏名称", "长评内容"]

/-- A finished profile for game `"g"`. -/
def doneProfile : GameProfile :=
  { game_name := "g", status := "success", total_reviews := some 1,
    batch_count := some 1, summary := some (.str "s"), pros := some (.arr []),
    cons := some (.arr []), tags := some (.arr []), processing_time := some 0 }

/-- A finished overall profile. -/
def doneOverall : OverallProfile :=
  { status := "success", total_games := some 1, total_reviews := some 1,
    summary := some (.str "s"), pros := some (.arr []), cons := some (.arr []),
    tags := some (.arr []), processing_time := some 0 }

/-- A DONE checkpoint document for source file `"a.xlsx"` with the single
game `"g"` completed. -/
def doneDoc : CombinedProfiles :=
  { session_info :=
      { timestamp := "20250101_000000", model := "llama3.2",
        batch_size := 20, status := "completed", excel_file := some "a.xlsx" },
    statistics :=
      { total_games := 1, total_reviews := 1, completed_games := 1,
        total_processing_time := 5 },
    game_profiles := [("g", doneProfile)], overall_profile := some doneOverall,
    batch_results := [] }

/-- The claimed per-batch durability property of a trace: between any two
batch-analyzer oracle calls of one entity there is a persist event. -/
def batchPersistedImmediately (l : List ETag) : Prop :=
  ∀ (pre mid post : List ETag) (g : String) (i j : Nat),
    l = pre ++ ETag.callBatch g i :: (mid ++ ETag.callBatch g j :: post) →
    ETag.save ∈ mid

/-- A second DONE checkpoint, for a different source file. -/
def doneDocB : CombinedProfiles :=
  { doneDoc with session_info :=
      { doneDoc.session_info with excel_file := some "b.xlsx" } }

/-- A store in which the most recent checkpoint is for `"b.xlsx"` while an
older checkpoint for `"a.xlsx"` is complete. -/
def storeTwo : List (String × CombinedProfiles) :=
  [("combined_profiles_20250102_000000.json", doneDocB),
   ("combined_profiles_20250101_000000.json", doneDoc)]

/-- An oracle whose third call (index 2) fails — in a fresh two-entity run
over `"g"` and `"h"` with one batch each, that is exactly entity `"h"`'s one
batch call, so `"h"`'s aggregation fails while the global profile is still
generated from `"g"` and the session is marked completed. -/
def failHEnv : OEnv :=
  { oracle := fun n => if n = 2 then .err "boom" else .ok "resp" 0,
    parse := fun _ => some [] }

/-- A checkpoint document produced by the pipeline itself: entity `"h"`'s
aggregation failed (so it has no entry in `game_profiles`), yet
`overall_profile` is present and `session_info.status = "completed"` — the
claim's DONE state without coverage of every grouped entity. -/
def partialDoneDoc : CombinedProfiles :=
  (analyze_user_profiles failHEnv [] initDoc "a.xlsx" reqCols
    [⟨some "g", some "r"⟩, ⟨some "h", some "r"⟩] 20).doc

/-! ### Batcher lemmas (claim C5) -/

theorem split_into_batches_nil (B : Nat) : split_into_batches B [] = [] := by
  unfold split_into_batches
  rcases Nat.eq_zero_or_pos B with h | h
  · subst h; rfl
  · have h0 : ((List.nil (α := String)).length + B - 1) / B = 0 :=
      Nat.div_eq_of_lt (by simp; omega)
    rw [h0]; rfl

theorem ceil_div_pos_eq (B : Nat) (hB : 0 < B) (m : Nat) (hm : 0 < m) :
    (m + B - 1) / B = (m - 1) / B + 1 := by
  have h : m + B - 1 = (m - 1) + B := by omega
  rw [h, Nat.add_div_right _ hB]

theorem split_into_batches_cons (B : Nat) (hB : 0 < B) (l : List String)
    (hl : l ≠ []) :
    split_into_batches B l = l.take B :: split_into_batches B (l.drop B) := by
  have hn : 0 < l.length := List.length_pos.mpr hl
  have htail : (l.length - 1) / B = ((l.drop B).length + B - 1) / B := by
    rw [List.length_drop]
    rcases Nat.lt_or_ge l.length (B + 1) with hle | hgt
    · have h1 : l.length - B = 0 := by omega
      rw [h1, Nat.div_eq_of_lt (by omega), Nat.div_eq_of_lt (by omega)]
    · rw [ceil_div_pos_eq B hB (l.length - B) (by omega)]
      have h2 : l.length - 1 = (l.length - B - 1) + B := by omega
      rw [h2, Nat.add_div_right _ hB]
  unfold split_into_batches
  rw [ceil_div_pos_eq B hB l.length hn, List.range'_succ, ← htail]
  simp only [List.map_cons, List.drop_zero, Nat.zero_add]
  congr 1
  have hshift : List.range' B ((l.length - 1) / B) B
      = (List.range' 0 ((l.length - 1) / B) B).map (fun i => B + i) := by
    have h := List.map_add_range' B 0 ((l.length - 1) / B) B
    simp only [Nat.add_zero] at h
    exact h.symm
  rw [hshift, List.map_map]
  apply List.map_congr_left
  intro i _
  simp only [Function.comp_apply]
  rw [List.drop_drop]

theorem split_into_batches_flatten (B : Nat) (hB : 0 < B) (l : List String) :
    (split_into_batches B l).flatten = l := by
  suffices h : ∀ n (l : List String), l.length = n →
      (split_into_batches B l).flatten = l from h l.length l rfl
  intro n
  induction n using Nat.strong_induction_on with
  | _ n ih =>
    intro l hlen
    rcases eq_or_ne l [] with rfl | hne
    · simp [split_into_batches_nil]
    · have hn : 0 < l.length := List.length_pos.mpr hne
      rw [split_into_batches_cons B hB l hne, List.flatten_cons,
        ih (l.drop B).length (by rw [List.length_drop]; omega) (l.drop B) rfl,
        List.take_append_drop]

theorem split_into_batches_length (B : Nat) (l : List String) :
    (split_into_batches B l).length = (l.length + B - 1) / B := by
  unfold split_into_batches
  simp

theorem split_into_batches_sizes (B : Nat) (hB : 0 < B) (l : List String) :
    (∀ b ∈ (split_into_batches B l).dropLast, b.length = B) ∧
    (∀ lb, (split_into_batches B l).getLast? = some lb →
      lb.length = if l.length % B = 0 then B else l.length % B) := by
  suffices h : ∀ n (l : List String), l.length = n →
      (∀ b ∈ (split_into_batches B l).dropLast, b.length = B) ∧
      (∀ lb, (split_into_batches B l).getLast? = some lb →
        lb.length = if l.length % B = 0 then B else l.length % B) from
    h l.length l rfl
  intro n
  induction n using Nat.strong_induction_on with
  | _ n ih =>
    intro l hlen
    rcases eq_or_ne l [] with rfl | hne
    · simp [split_into_batches_nil]
    · have hn : 0 < l.length := List.length_pos.mpr hne
      rw [split_into_batches_cons B hB l hne]
      rcases eq_or_ne (l.drop B) [] with hdrop | hdrop
      · have hle : l.length ≤ B := by
          have := List.length_drop B l
          rw [hdrop] at this
          simp at this
          omega
        rw [hdrop, split_into_batches_nil]
        constructor
        · intro b hb
          simp at hb
        · intro lb hlb
          simp at hlb
          subst hlb
          rw [List.length_take]
          rcases Nat.lt_or_ge l.length B with hlt | hge
          · have hmod : l.length % B = l.length := Nat.mod_eq_of_lt hlt
            rw [hmod, if_neg (by omega), Nat.min_eq_right (by omega)]
          · have hEq : l.length = B := by omega
            rw [hEq]
            simp [Nat.mod_self]
      · have hs := ih (l.drop B).length
          (by rw [List.length_drop]; omega) (l.drop B) rfl
        have hnil : split_into_batches B (l.drop B) ≠ [] := by
          intro hcon
          have hlen0 := congrArg List.length hcon
          rw [split_into_batches_length] at hlen0
          simp only [List.length_nil] at hlen0
          have hd : 0 < (l.drop B).length := List.length_pos.mpr hdrop
          rw [ceil_div_pos_eq B hB _ hd] at hlen0
          exact Nat.succ_ne_zero _ hlen0
        have hgt : B < l.length := by
          by_contra hcon
          apply hdrop
          apply List.drop_eq_nil_of_le
          omega
        constructor
        · intro b hb
          rw [List.dropLast_cons_of_ne_nil hnil] at hb
          rcases List.mem_cons.mp hb with rfl | hb
          · rw [List.length_take]
            omega
          · exact hs.1 b hb
        · intro lb hlb
          have hmod : (l.drop B).length % B = l.length % B := by
            rw [List.length_drop]
            have h2 : l.length = (l.length - B) + B := by omega
            conv_rhs => rw [h2]
            rw [Nat.add_mod_right]
          rcases hx : (split_into_batches B (l.drop B)).getLast? with _ | lb'
          · exact absurd (List.getLast?_eq_none_iff.mp hx) hnil
          · have hcons : (l.take B :: split_into_batches B (l.drop B)).getLast? =
                some lb' := by
              rw [List.getLast?_cons, hx]
              rfl
            rw [hcons] at hlb
            cases hlb
            have := hs.2 lb hx
            rw [hmod] at this
            exact this

/-- C5: for every text list and batch size `B ≥ 1`, `split_into_batches`
produces exactly `⌈n/B⌉` batches, each of size `B` except possibly the last
(whose size is `n mod B` when that is non-zero, else `B`), whose
concatenation is the input in original order; empty input yields zero
batches. -/
theorem C5_batcher_correct (l : List String) (B : Nat) (hB : 1 ≤ B) :
    (split_into_batches B l).length = (l.length + B - 1) / B ∧
    (split_into_batches B l).flatten = l ∧
    (∀ b ∈ (split_into_batches B l).dropLast, b.length = B) ∧
    (∀ lb, (split_into_batches B l).getLast? = some lb →
      lb.length = if l.length % B = 0 then B else l.length % B) ∧
    (l = [] → split_into_batches B l = []) :=
  ⟨split_into_batches_length B l, split_into_batches_flatten B hB l,
    (split_into_batches_sizes B hB l).1, (split_into_batches_sizes B hB l).2,
    fun h => h ▸ split_into_batches_nil B⟩

theorem C5_batcher_correct_witness :
    (split_into_batches 2 ["a", "b", "c", "d", "e"]).flatten =
      ["a", "b", "c", "d", "e"] :=
  (C5_batcher_correct ["a", "b", "c", "d", "e"] 2 (by omega)).2.1

/-! ### Required-field filling (claim C6) -/

theorem jlookup_append_of_some (obj : JObj) (f g : String) (d v : JVal)
    (h : jlookup obj g = some v) : jlookup (obj ++ [(f, d)]) g = some v := by
  induction obj with
  | nil => simp [jlookup] at h
  | cons p rest ih =>
    obtain ⟨k, w⟩ := p
    by_cases hk : k = g
    · simp only [jlookup, if_pos hk] at h
      simp [jlookup, hk, h]
    · simp only [jlookup, if_neg hk] at h
      simp only [List.cons_append, jlookup, if_neg hk]
      exact ih h

theorem jlookup_append_of_none (obj : JObj) (f g : String) (d : JVal)
    (h : jlookup obj g = none) :
    jlookup (obj ++ [(f, d)]) g = if f = g then some d else none := by
  induction obj with
  | nil => simp [jlookup]
  | cons p rest ih =>
    obtain ⟨k, w⟩ := p
    by_cases hk : k = g
    · simp [jlookup, hk] at h
    · simp only [jlookup, if_neg hk] at h
      simp only [List.cons_append, jlookup, if_neg hk]
      exact ih h

theorem fillField_of_some (obj : JObj) (f g : String) (d v : JVal)
    (h : jlookup obj g = some v) : jlookup (fillField obj f d) g = some v := by
  unfold fillField
  by_cases hs : (jlookup obj f).isSome
  · simp [hs, h]
  · simp only [hs, if_neg Bool.false_ne_true]
    exact jlookup_append_of_some obj f g d v h

theorem fillField_of_ne (obj : JObj) (f g : String) (d : JVal) (hne : f ≠ g) :
    jlookup (fillField obj f d) g = jlookup obj g := by
  unfold fillField
  by_cases hs : (jlookup obj f).isSome
  · simp [hs]
  · simp only [hs, if_neg Bool.false_ne_true]
    rcases hx : jlookup obj g with _ | v
    · rw [jlookup_append_of_none obj f g d hx, if_neg hne]
    · exact jlookup_append_of_some obj f g d v hx

theorem fillField_self_of_none (obj : JObj) (f : String) (d : JVal)
    (h : jlookup obj f = none) :
    jlookup (fillField obj f d) f = some d := by
  unfold fillField
  simp only [h, Option.isSome_none, if_neg Bool.false_ne_true]
  rw [jlookup_append_of_none obj f f d h, if_pos rfl]

theorem fill_required_of_some (obj : JObj) (g : String) (v : JVal)
    (h : jlookup obj g = some v) :
    jlookup (fill_required obj) g = some v := by
  unfold fill_required
  exact fillField_of_some _ _ _ _ _ (fillField_of_some _ _ _ _ _
    (fillField_of_some _ _ _ _ _ (fillField_of_some _ _ _ _ _ h)))

theorem fill_required_summary_of_none (obj : JObj)
    (h : jlookup obj "summary" = none) :
    jlookup (fill_required obj) "summary" = some (.str "") := by
  unfold fill_required
  exact fillField_of_some _ _ _ _ _ (fillField_of_some _ _ _ _ _
    (fillField_of_some _ _ _ _ _ (fillField_self_of_none obj "summary" _ h)))

theorem fill_required_pros_of_none (obj : JObj)
    (h : jlookup obj "pros" = none) :
    jlookup (fill_required obj) "pros" = some (.arr []) := by
  unfold fill_required
  apply fillField_of_some
  apply fillField_of_some
  apply fillField_self_of_none
  rw [fillField_of_ne obj "summary" "pros" _ (by decide)]
  exact h

theorem fill_required_cons_of_none (obj : JObj)
    (h : jlookup obj "cons" = none) :
    jlookup (fill_required obj) "cons" = some (.arr []) := by
  unfold fill_required
  apply fillField_of_some
  apply fillField_self_of_none
  rw [fillField_of_ne _ "pros" "cons" _ (by decide),
    fillField_of_ne obj "summary" "cons" _ (by decide)]
  exact h

theorem fill_required_tags_of_none (obj : JObj)
    (h : jlookup obj "tags" = none) :
    jlookup (fill_required obj) "tags" = some (.arr []) := by
  unfold fill_required
  apply fillField_self_of_none
  rw [fillField_of_ne _ "cons" "tags" _ (by decide),
    fillField_of_ne _ "pros" "tags" _ (by decide),
    fillField_of_ne obj "summary" "tags" _ (by decide)]
  exact h

/-- C6: whenever the oracle response parses as JSON, the per-game and the
global aggregation results carry all four required keys, a key missing from
the parsed object is filled with `""` (summary) or `[]` (pros/cons/tags),
and the call is recorded as `success`. -/
theorem C6_required_keys_filled (env : OEnv) (k : Nat) (game_name : String)
    (brs : List BatchResult) (gps : List GameProfile)
    (content : String) (dur : Nat) (obj : JObj)
    (hok : env.oracle k = .ok content dur)
    (hparse : env.parse content = some obj) :
    (brs.filter (fun r => r.status == "success") ≠ [] →
      (aggregate_game_profiles env k game_name brs).1.status = "success" ∧
      (aggregate_game_profiles env k game_name brs).1.summary.isSome ∧
      (aggregate_game_profiles env k game_name brs).1.pros.isSome ∧
      (aggregate_game_profiles env k game_name brs).1.cons.isSome ∧
      (aggregate_game_profiles env k game_name brs).1.tags.isSome ∧
      (jlookup obj "summary" = none →
        (aggregate_game_profiles env k game_name brs).1.summary = some (.str "")) ∧
      (jlookup obj "pros" = none →
        (aggregate_game_profiles env k game_name brs).1.pros = some (.arr [])) ∧
      (jlookup obj "cons" = none →
        (aggregate_game_profiles env k game_name brs).1.cons = some (.arr [])) ∧
      (jlookup obj "tags" = none →
        (aggregate_game_profiles env k game_name brs).1.tags = some (.arr []))) ∧
    (gps.filter (fun p => p.status == "success") ≠ [] →
      (generate_overall_profile env k gps).1.status = "success" ∧
      (generate_overall_profile env k gps).1.summary.isSome ∧
      (generate_overall_profile env k gps).1.pros.isSome ∧
      (generate_overall_profile env k gps).1.cons.isSome ∧
      (generate_overall_profile env k gps).1.tags.isSome ∧
      (jlookup obj "summary" = none →
        (generate_overall_profile env k gps).1.summary = some (.str "")) ∧
      (jlookup obj "pros" = none →
        (generate_overall_profile env k gps).1.pros = some (.arr [])) ∧
      (jlookup obj "cons" = none →
        (generate_overall_profile env k gps).1.cons = some (.arr [])) ∧
      (jlookup obj "tags" = none →
        (generate_overall_profile env k gps).1.tags = some (.arr []))) := by
  constructor
  · intro hne
    have hempty : (brs.filter (fun r => r.status == "success")).isEmpty = false := by
      simpa [List.isEmpty_iff] using hne
    simp only [aggregate_game_profiles, hempty, Bool.false_eq_true, if_false,
      hok, hparse]
    refine ⟨by trivial, by trivial, by trivial, by trivial, by trivial, ?_, ?_, ?_, ?_⟩
    · intro h
      simp [jget, fill_required_summary_of_none obj h]
    · intro h
      simp [jget, fill_required_pros_of_none obj h]
    · intro h
      simp [jget, fill_required_cons_of_none obj h]
    · intro h
      simp [jget, fill_required_tags_of_none obj h]
  · intro hne
    have hempty : (gps.filter (fun p => p.status == "success")).isEmpty = false := by
      simpa [List.isEmpty_iff] using hne
    simp only [generate_overall_profile, hempty, Bool.false_eq_true, if_false,
      hok, hparse]
    refine ⟨by trivial, by trivial, by trivial, by trivial, by trivial, ?_, ?_, ?_, ?_⟩
    · intro h
      simp [jget, fill_required_summary_of_none obj h]
    · intro h
      simp [jget, fill_required_pros_of_none obj h]
    · intro h
      simp [jget, fill_required_cons_of_none obj h]
    · intro h
      simp [jget, fill_required_tags_of_none obj h]

theorem C6_required_keys_filled_witness :
    (aggregate_game_profiles
      { oracle := fun _ => OResp.ok "resp" 3, parse := fun _ => some [("summary", JVal.str "s")] }
      0 "g"
      [{ game_name := "g", batch_num := 1, review_count := 2, analysis := "a",
         processing_time := 1, status := "success" }]).1.pros = some (JVal.arr []) := by
  have h := C6_required_keys_filled
    { oracle := fun _ => OResp.ok "resp" 3, parse := fun _ => some [("summary", JVal.str "s")] }
    0 "g"
    [{ game_name := "g", batch_num := 1, review_count := 2, analysis := "a",
       processing_time := 1, status := "success" }]
    [] "resp" 3 [("summary", JVal.str "s")] rfl rfl
  exact (h.1 (by decide)).2.2.2.2.2.2.1 rfl

/-! ### Failure propagation through the aggregators (claims C7, C8) -/

/-- C7: an entity whose batch results all failed gets a `failed` profile with
an error message and no oracle call; that profile does not pass the global
aggregator's success filter; and a global aggregation over zero successful
profiles returns `failed` with an error message and no oracle call. -/
theorem C7_all_failed_degrades (env : OEnv) (k : Nat) (game_name : String)
    (brs : List BatchResult) (gps : List GameProfile)
    (hall : ∀ r ∈ brs, r.status = "failed") :
    (aggregate_game_profiles env k game_name brs).1.status = "failed" ∧
    (aggregate_game_profiles env k game_name brs).1.error.isSome ∧
    (aggregate_game_profiles env k game_name brs).2.1 = k ∧
    (aggregate_game_profiles env k game_name brs).2.2 = [] ∧
    ((gps ++ [(aggregate_game_profiles env k game_name brs).1]).filter
        (fun p => p.status == "success") =
      gps.filter (fun p => p.status == "success")) ∧
    (∀ (env2 : OEnv) (k2 : Nat) (gps2 : List GameProfile),
      (∀ q ∈ gps2, q.status ≠ "success") →
      (generate_overall_profile env2 k2 gps2).1.status = "failed" ∧
      (generate_overall_profile env2 k2 gps2).1.error.isSome ∧
      (generate_overall_profile env2 k2 gps2).2.1 = k2 ∧
      (generate_overall_profile env2 k2 gps2).2.2 = []) := by
  have hfilter : brs.filter (fun r => r.status == "success") = [] := by
    apply List.filter_eq_nil_iff.mpr
    intro r hr
    simp [hall r hr]
  have hempty : (brs.filter (fun r => r.status == "success")).isEmpty = true := by
    rw [hfilter]; rfl
  have hagg : aggregate_game_profiles env k game_name brs =
      ({ game_name := game_name, status := "failed",
         error := some "所有批次分析都失败了" }, k, []) := by
    simp only [aggregate_game_profiles, hempty, if_true]
  refine ⟨by rw [hagg], by rw [hagg]; rfl, by rw [hagg], by rw [hagg], ?_, ?_⟩
  · rw [hagg, List.filter_append]
    simp
  · intro env2 k2 gps2 hall2
    have hfilter2 : gps2.filter (fun p => p.status == "success") = [] := by
      apply List.filter_eq_nil_iff.mpr
      intro q hq
      simp [hall2 q hq]
    have hempty2 : (gps2.filter (fun p => p.status == "success")).isEmpty = true := by
      rw [hfilter2]; rfl
    have hov : generate_overall_profile env2 k2 gps2 =
        ({ status := "failed", error := some "没有成功的游戏画像可聚合" }, k2, []) := by
      simp only [generate_overall_profile, hempty2, if_true]
    refine ⟨by rw [hov], by rw [hov]; rfl, by rw [hov], by rw [hov]⟩

theorem C7_all_failed_degrades_witness :
    (aggregate_game_profiles
      { oracle := fun _ => OResp.ok "resp" 3, parse := fun _ => some [] } 0 "g"
      [{ game_name := "g", batch_num := 1, review_count := 2,
         analysis := "分析失败: boom", processing_time := 0,
         status := "failed" }]).1.status = "failed" :=
  (C7_all_failed_degrades
    { oracle := fun _ => OResp.ok "resp" 3, parse := fun _ => some [] } 0 "g"
    [{ game_name := "g", batch_num := 1, review_count := 2,
       analysis := "分析失败: boom", processing_time := 0, status := "failed" }]
    [] (by intro r hr; simp at hr; rw [hr])).1

/-- C8 counterexample: on a JSON-parse failure the fallback profile's `tags`
placeholder has two elements (`["用户评价", "游戏体验"]`), so the claim's
"single-element placeholder pros/cons/tags" is false for `tags`. -/
theorem C8_fallback_tags_two_elements :
    (aggregate_game_profiles
      { oracle := fun _ => OResp.ok "not json" 7, parse := fun _ => none }
      0 "g"
      [{ game_name := "g", batch_num := 1, review_count := 5, analysis := "a",
         processing_time := 2, status := "success" }]).1.tags
      = some (JVal.arr ["用户评价", "游戏体验"]) ∧
    (["用户评价", "游戏体验"] : List String).length = 2 :=
  ⟨rfl, rfl⟩

/-- C8 (amended): on a JSON-parse failure after the strip-and-reparse
recovery, the per-game aggregator returns a *success* placeholder profile —
generic summary mentioning the review count, single-element placeholder
`pros` and `cons`, and a two-element placeholder `tags` — rather than a
failed profile; and every success-status profile has
`total_reviews` = the sum of `review_count` over exactly the status-success
batch results feeding the aggregation and `batch_count` = their number. -/
theorem C8_fallback_profile (env : OEnv) (k : Nat) (game_name : String)
    (brs : List BatchResult) (content : String) (dur : Nat)
    (hok : env.oracle k = .ok content dur)
    (hparse : env.parse content = none)
    (hne : brs.filter (fun r => r.status == "success") ≠ []) :
    ((aggregate_game_profiles env k game_name brs).1.status = "success" ∧
      (aggregate_game_profiles env k game_name brs).1.summary =
        some (.str ("基于" ++
          toString (((brs.filter (fun r => r.status == "success")).map
            (fun r => r.review_count)).sum) ++ "条评论的游戏画像")) ∧
      (aggregate_game_profiles env k game_name brs).1.pros =
        some (.arr ["用户评价积极"]) ∧
      (aggregate_game_profiles env k game_name brs).1.cons =
        some (.arr ["需要更多反馈"]) ∧
      (aggregate_game_profiles env k game_name brs).1.tags =
        some (.arr ["用户评价", "游戏体验"])) ∧
    (∀ (env2 : OEnv) (k2 : Nat) (g2 : String) (brs2 : List BatchResult),
      (aggregate_game_profiles env2 k2 g2 brs2).1.status = "success" →
      (aggregate_game_profiles env2 k2 g2 brs2).1.total_reviews =
        some (((brs2.filter (fun r => r.status == "success")).map
          (fun r => r.review_count)).sum) ∧
      (aggregate_game_profiles env2 k2 g2 brs2).1.batch_count =
        some (brs2.filter (fun r => r.status == "success")).length) := by
  constructor
  · have hempty : (brs.filter (fun r => r.status == "success")).isEmpty = false := by
      simpa [List.isEmpty_iff] using hne
    simp only [aggregate_game_profiles, hempty, Bool.false_eq_true, if_false,
      hok, hparse]
    exact ⟨by trivial, by trivial, by trivial, by trivial, by trivial⟩
  · intro env2 k2 g2 brs2 hsucc
    by_cases hempty2 : (brs2.filter (fun r => r.status == "success")).isEmpty
    · exfalso
      simp only [aggregate_game_profiles, hempty2, if_true] at hsucc
      exact absurd hsucc (by decide)
    · rw [Bool.not_eq_true] at hempty2
      rcases ho : env2.oracle k2 with e | ⟨content2, dur2⟩
      · exfalso
        simp only [aggregate_game_profiles, hempty2, Bool.false_eq_true,
          if_false, ho] at hsucc
        exact absurd hsucc (by decide)
      · rcases hp : env2.parse content2 with _ | obj
        · simp only [aggregate_game_profiles, hempty2, Bool.false_eq_true,
            if_false, ho, hp]
          exact ⟨by trivial, by trivial⟩
        · simp only [aggregate_game_profiles, hempty2, Bool.false_eq_true,
            if_false, ho, hp]
          exact ⟨by trivial, by trivial⟩

theorem C8_fallback_profile_witness :
    (aggregate_game_profiles
      { oracle := fun _ => OResp.ok "not json" 7, parse := fun _ => none }
      0 "A"
      [{ game_name := "A", batch_num := 1, review_count := 20, analysis := "x",
         processing_time := 2, status := "success" },
       { game_name := "A", batch_num := 2, review_count := 5, analysis := "y",
         processing_time := 2, status := "success" }]).1.summary =
      some (JVal.str "基于25条评论的游戏画像") := by
  have h := C8_fallback_profile
    { oracle := fun _ => OResp.ok "not json" 7, parse := fun _ => none }
    0 "A"
    [{ game_name := "A", batch_num := 1, review_count := 20, analysis := "x",
       processing_time := 2, status := "success" },
     { game_name := "A", batch_num := 2, review_count := 5, analysis := "y",
       processing_time := 2, status := "success" }]
    "not json" 7 rfl rfl (by decide)
  exact h.1.2.1

/-! ### Grouper lemmas (claim C9) -/

theorem groupGet_addReview (m : List (String × List String)) (g r g' : String) :
    groupGet (addReview m g r) g' =
      if g = g' then groupGet m g' ++ [r] else groupGet m g' := by
  induction m with
  | nil =>
    by_cases h : g = g' <;> simp [addReview, groupGet, h]
  | cons p rest ih =>
    obtain ⟨a, rs⟩ := p
    by_cases ha : a = g
    · subst ha
      by_cases hg : a = g'
      · simp [addReview, groupGet, hg]
      · simp [addReview, groupGet, hg]
    · by_cases hg : a = g'
      · subst hg
        have hgg : ¬ (g = a) := fun h => ha h.symm
        simp [addReview, groupGet, ha, hgg, ih]
      · simp [addReview, groupGet, ha, hg, ih]

theorem groupGet_foldl_addRow (rows : List Row) :
    ∀ (m : List (String × List String)) (g : String),
      groupGet (rows.foldl addRow m) g = groupGet m g ++ groupedRows rows g := by
  induction rows with
  | nil =>
    intro m g
    simp [groupedRows]
  | cons row rest ih =>
    intro m g
    rw [List.foldl_cons, ih]
    show groupGet (addRow m row) g ++ groupedRows rest g
      = groupGet m g ++ groupedRows (row :: rest) g
    unfold addRow groupedRows
    rw [List.filterMap_cons]
    by_cases hv : pyStrip (pyStr row.game_name) ≠ "" ∧ pyStrip (pyStr row.review) ≠ ""
    · rw [if_pos hv]
      by_cases hg : pyStrip (pyStr row.game_name) = g
      · rw [if_pos ⟨hg, hv.1, hv.2⟩, groupGet_addReview, if_pos hg]
        simp [groupedRows]
      · rw [if_neg (fun h => hg h.1), groupGet_addReview, if_neg hg]
    · rw [if_neg hv]
      have hcond : ¬ (pyStrip (pyStr row.game_name) = g ∧ pyStrip (pyStr row.game_name) ≠ "" ∧
          pyStrip (pyStr row.review) ≠ "") := fun h => hv ⟨h.2.1, h.2.2⟩
      rw [if_neg hcond]

/-- C9 (amended): the grouper drops (with no entry and no error) exactly the
rows whose fields are empty after trimming — a genuinely missing cell is the
pandas NaN, whose `str()` is the non-empty literal `"nan"`, so such a row is
kept, not dropped — it maps each trimmed game name to exactly the trimmed
reviews of its kept rows in original order, and the load fails with a
data-format error exactly when a required column is absent from the schema. -/
theorem C9_grouper_drops_and_errors (cols : List String) (rows : List Row)
    (g : String) :
    (("游戏名称" ∈ cols ∧ "长评内容" ∈ cols) →
      load_and_group_data cols rows = Except.ok (group_rows rows)) ∧
    (¬ ("游戏名称" ∈ cols ∧ "长评内容" ∈ cols) →
      ∀ gd, load_and_group_data cols rows ≠ Except.ok gd) ∧
    groupGet (group_rows rows) g = groupedRows rows g := by
  refine ⟨?_, ?_, ?_⟩
  · intro h
    unfold load_and_group_data
    simp [h.1, h.2]
  · intro h gd
    unfold load_and_group_data
    simp [h]
  · unfold group_rows
    rw [groupGet_foldl_addRow rows [] g]
    rfl

/-- C9 counterexample: a row whose entity cell is missing is not dropped —
`str()` of the pandas NaN is the non-empty literal `"nan"` — so the row is
kept and grouped under the entity name `"nan"`, where the claim requires no
entry to be produced. -/
theorem C9_missing_cell_kept_as_nan :
    group_rows [{ game_name := none, review := some "r" }] = [("nan", ["r"])] ∧
    groupGet (group_rows [{ game_name := none, review := some "r" }]) "nan" =
      ["r"] := by
  refine ⟨by decide, by decide⟩

/-! ### Trace lemmas for the pipeline driver (claims C1–C4, C10) -/

theorem analyze_batch_game_name (resp : OResp) (g : String)
    (bs : List String) (i : Nat) : (analyze_batch resp g bs i).game_name = g := by
  cases resp <;> rfl

theorem analyze_batch_batch_num (resp : OResp) (g : String)
    (bs : List String) (i : Nat) : (analyze_batch resp g bs i).batch_num = i := by
  cases resp <;> rfl

theorem process_batches_batch_results (env : OEnv) (g : String) :
    ∀ (bs : List (List String)) (k i : Nat) (doc : CombinedProfiles),
      (process_batches env g k bs i doc).doc.batch_results =
        doc.batch_results ++ (process_batches env g k bs i doc).results := by
  intro bs
  induction bs with
  | nil =>
    intro k i doc
    simp [process_batches]
  | cons b rest ih =>
    intro k i doc
    simp only [process_batches]
    rw [ih]
    simp

theorem process_batches_doc_fields (env : OEnv) (g : String) :
    ∀ (bs : List (List String)) (k i : Nat) (doc : CombinedProfiles),
      (process_batches env g k bs i doc).doc.game_profiles = doc.game_profiles ∧
      (process_batches env g k bs i doc).doc.overall_profile = doc.overall_profile ∧
      (process_batches env g k bs i doc).doc.session_info = doc.session_info ∧
      (process_batches env g k bs i doc).doc.statistics = doc.statistics := by
  intro bs
  induction bs with
  | nil =>
    intro k i doc
    exact ⟨rfl, rfl, rfl, rfl⟩
  | cons b rest ih =>
    intro k i doc
    simp only [process_batches]
    exact ih _ _ _

theorem process_batches_events (env : OEnv) (g : String) :
    ∀ (bs : List (List String)) (k i : Nat) (doc : CombinedProfiles),
      (process_batches env g k bs i doc).events =
        (List.range bs.length).map (fun n => Event.callBatch g (i + n)) := by
  intro bs
  induction bs with
  | nil =>
    intro k i doc
    simp [process_batches]
  | cons b rest ih =>
    intro k i doc
    simp only [process_batches, ih, List.length_cons, List.range_succ_eq_map,
      List.map_cons, List.map_map, Nat.add_zero]
    congr 1
    apply List.map_congr_left
    intro a _
    simp only [Function.comp_apply]
    congr 1
    omega

theorem process_batches_results_mem (env : OEnv) (g : String) :
    ∀ (bs : List (List String)) (k i : Nat) (doc : CombinedProfiles) (n : Nat),
      n < bs.length →
      ∃ r, r ∈ (process_batches env g k bs i doc).results ∧
        r.game_name = g ∧ r.batch_num = i + n := by
  intro bs
  induction bs with
  | nil =>
    intro k i doc n hn
    simp at hn
  | cons b rest ih =>
    intro k i doc n hn
    rcases n with _ | n
    · refine ⟨analyze_batch (env.oracle k) g b i, ?_, analyze_batch_game_name _ _ _ _, ?_⟩
      · simp [process_batches]
      · rw [analyze_batch_batch_num]
        omega
    · obtain ⟨r, hr, hg, hb⟩ := ih (k + 1) (i + 1) _ n (by simpa using hn)
      refine ⟨r, ?_, hg, ?_⟩
      · simp only [process_batches]
        exact List.mem_cons_of_mem _ hr
      · rw [hb]
        omega

theorem aggregate_game_profiles_events (env : OEnv) (k : Nat) (g : String)
    (brs : List BatchResult) :
    ∀ e ∈ (aggregate_game_profiles env k g brs).2.2, e = Event.callGameAgg g := by
  by_cases h : (brs.filter (fun r => r.status == "success")).isEmpty
  · simp [aggregate_game_profiles, h]
  · rw [Bool.not_eq_true] at h
    rcases ho : env.oracle k with e0 | ⟨c, d⟩
    · simp [aggregate_game_profiles, h, ho]
    · rcases hp : env.parse c with _ | obj <;>
        simp [aggregate_game_profiles, h, ho, hp]

theorem aggregate_game_profiles_game_name (env : OEnv) (k : Nat) (g : String)
    (brs : List BatchResult) :
    (aggregate_game_profiles env k g brs).1.game_name = g := by
  by_cases h : (brs.filter (fun r => r.status == "success")).isEmpty
  · simp [aggregate_game_profiles, h]
  · rw [Bool.not_eq_true] at h
    rcases ho : env.oracle k with e0 | ⟨c, d⟩
    · simp [aggregate_game_profiles, h, ho]
    · rcases hp : env.parse c with _ | obj <;>
        simp [aggregate_game_profiles, h, ho, hp]

theorem generate_overall_profile_events (env : OEnv) (k : Nat)
    (gps : List GameProfile) :
    ∀ e ∈ (generate_overall_profile env k gps).2.2, e = Event.callOverall := by
  by_cases h : (gps.filter (fun p => p.status == "success")).isEmpty
  · simp [generate_overall_profile, h]
  · rw [Bool.not_eq_true] at h
    rcases ho : env.oracle k with e0 | ⟨c, d⟩
    · simp [generate_overall_profile, h, ho]
    · rcases hp : env.parse c with _ | obj <;>
        simp [generate_overall_profile, h, ho, hp]

theorem save_batch_results_spec (doc : CombinedProfiles) (brs : List BatchResult) :
    (save_batch_results doc brs).1.batch_results = doc.batch_results ++ brs ∧
    (save_batch_results doc brs).1.game_profiles = doc.game_profiles ∧
    (save_batch_results doc brs).1.overall_profile = doc.overall_profile ∧
    (save_batch_results doc brs).2 = [Event.save (save_batch_results doc brs).1] :=
  ⟨rfl, rfl, rfl, rfl⟩

theorem save_game_profile_preserves (doc : CombinedProfiles) (p : GameProfile) :
    (save_game_profile doc p).1.overall_profile = doc.overall_profile ∧
    (save_game_profile doc p).1.batch_results = doc.batch_results ∧
    (save_game_profile doc p).1.session_info = doc.session_info := by
  unfold save_game_profile
  split <;> exact ⟨rfl, rfl, rfl⟩

theorem save_game_profile_game_profiles (doc : CombinedProfiles) (p : GameProfile) :
    (save_game_profile doc p).1.game_profiles = doc.game_profiles ∨
    (p.status = "success" ∧
      (save_game_profile doc p).1.game_profiles =
        dictInsert doc.game_profiles p.game_name p) := by
  unfold save_game_profile
  by_cases h : p.status == "success"
  · right
    refine ⟨by simpa using h, ?_⟩
    simp [h]
  · left
    simp [h]

theorem save_game_profile_events_tag (doc : CombinedProfiles) (p : GameProfile) :
    ∀ e ∈ (save_game_profile doc p).2, Event.tag e = ETag.save := by
  unfold save_game_profile
  split <;> simp [Event.tag]

theorem update_session_progress_preserves (doc : CombinedProfiles)
    (gd oc : Bool) :
    (update_session_progress doc gd oc).1.overall_profile = doc.overall_profile ∧
    (update_session_progress doc gd oc).1.batch_results = doc.batch_results ∧
    (update_session_progress doc gd oc).1.game_profiles = doc.game_profiles := by
  cases gd <;> cases oc <;> exact ⟨rfl, rfl, rfl⟩

theorem update_session_progress_events_tag (doc : CombinedProfiles)
    (gd oc : Bool) :
    ∀ e ∈ (update_session_progress doc gd oc).2, Event.tag e = ETag.save := by
  cases gd <;> cases oc <;> simp [update_session_progress, Event.tag]

theorem dictInsert_mem (g : String) (p : GameProfile) :
    ∀ (m : List (String × GameProfile)) (q : String × GameProfile),
      q ∈ dictInsert m g p → q ∈ m ∨ q = (g, p) := by
  intro m
  induction m with
  | nil =>
    intro q hq
    simp [dictInsert] at hq
    right
    exact hq
  | cons a rest ih =>
    intro q hq
    obtain ⟨a1, a2⟩ := a
    by_cases h : a1 = g
    · simp only [dictInsert, if_pos h] at hq
      rcases List.mem_cons.mp hq with rfl | hq
      · right; rfl
      · left; exact List.mem_cons_of_mem _ hq
    · simp only [dictInsert, if_neg h] at hq
      rcases List.mem_cons.mp hq with rfl | hq
      · left; exact List.mem_cons_self _ _
      · rcases ih q hq with h1 | h1
        · left; exact List.mem_cons_of_mem _ h1
        · right; exact h1

theorem process_one_game_doc_preserves (env : OEnv) (B : Nat)
    (games : List (String × List String)) (k : Nat) (doc : CombinedProfiles)
    (gps : List GameProfile) (t : Nat) (g : String) :
    (process_one_game env B games k doc gps t g).doc.overall_profile =
      doc.overall_profile := by
  simp only [process_one_game]
  rw [(update_session_progress_preserves _ _ _).1,
      (save_game_profile_preserves _ _).1,
      (save_batch_results_spec _ _).2.2.1,
      (process_batches_doc_fields env g _ _ _ _).2.1]

theorem process_one_game_game_profiles (env : OEnv) (B : Nat)
    (games : List (String × List String)) (k : Nat) (doc : CombinedProfiles)
    (gps : List GameProfile) (t : Nat) (g : String) :
    (process_one_game env B games k doc gps t g).doc.game_profiles =
        doc.game_profiles ∨
    ∃ p : GameProfile, p.status = "success" ∧
      (process_one_game env B games k doc gps t g).doc.game_profiles =
        dictInsert doc.game_profiles p.game_name p := by
  simp only [process_one_game]
  set bs := split_into_batches B (groupGet games g) with hbs
  set bout := process_batches env g k bs 1 doc with hbout
  set sb := save_batch_results bout.doc bout.results with hsb
  set agg := aggregate_game_profiles env bout.k g bout.results with hagg
  rw [(update_session_progress_preserves _ _ _).2.2]
  rcases save_game_profile_game_profiles sb.1 agg.1 with h | ⟨hs, h⟩
  · left
    rw [h, hsb, (save_batch_results_spec _ _).2.1, hbout,
      (process_batches_doc_fields env g _ _ _ _).1]
  · right
    refine ⟨agg.1, hs, ?_⟩
    rw [h, hsb, (save_batch_results_spec _ _).2.1, hbout,
      (process_batches_doc_fields env g _ _ _ _).1]

theorem process_one_game_events_shape (env : OEnv) (B : Nat)
    (games : List (String × List String)) (k : Nat) (doc : CombinedProfiles)
    (gps : List GameProfile) (t : Nat) (g : String) :
    ∃ d rest,
      (process_one_game env B games k doc gps t g).events =
        (List.range (split_into_batches B (groupGet games g)).length).map
          (fun n => Event.callBatch g (1 + n)) ++ Event.save d :: rest ∧
      (∀ n, n < (split_into_batches B (groupGet games g)).length →
        ∃ r, r ∈ d.batch_results ∧ r.game_name = g ∧ r.batch_num = 1 + n) ∧
      (∀ e ∈ rest, Event.tag e = ETag.save ∨ e = Event.callGameAgg g) := by
  simp only [process_one_game]
  set bs := split_into_batches B (groupGet games g) with hbs
  set bout := process_batches env g k bs 1 doc with hbout
  set sb := save_batch_results bout.doc bout.results with hsb
  set agg := aggregate_game_profiles env bout.k g bout.results with hagg
  set sg := save_game_profile sb.1 agg.1 with hsg
  set up := update_session_progress sg.1 true false with hup
  refine ⟨sb.1, agg.2.2 ++ sg.2 ++ up.2, ?_, ?_, ?_⟩
  · have hev : bout.events =
        (List.range bs.length).map (fun n => Event.callBatch g (1 + n)) := by
      rw [hbout, process_batches_events]
    have hsb2 : sb.2 = [Event.save sb.1] := (save_batch_results_spec _ _).2.2.2
    rw [hev, hsb2]
    simp [List.append_assoc]
  · intro n hn
    obtain ⟨r, hr, h1, h2⟩ := process_batches_results_mem env g bs k 1 doc n hn
    refine ⟨r, ?_, h1, h2⟩
    have hbr : sb.1.batch_results = bout.doc.batch_results ++ bout.results :=
      (save_batch_results_spec _ _).1
    rw [hbr]
    apply List.mem_append_right
    rw [hbout]
    exact hr
  · intro e he
    rcases List.mem_append.mp he with he1 | he1
    · rcases List.mem_append.mp he1 with he2 | he2
      · right
        exact aggregate_game_profiles_events env bout.k g bout.results e he2
      · left
        exact save_game_profile_events_tag _ _ e he2
    · left
      exact update_session_progress_events_tag _ _ _ e he1

theorem process_one_game_event_mem (env : OEnv) (B : Nat)
    (games : List (String × List String)) (k : Nat) (doc : CombinedProfiles)
    (gps : List GameProfile) (t : Nat) (g : String) :
    ∀ e ∈ (process_one_game env B games k doc gps t g).events,
      (∃ i, e = Event.callBatch g i) ∨ e = Event.callGameAgg g ∨
      ∃ d, e = Event.save d := by
  intro e he
  obtain ⟨d, rest, hev, _, hrest⟩ :=
    process_one_game_events_shape env B games k doc gps t g
  rw [hev] at he
  rcases List.mem_append.mp he with he1 | he1
  · obtain ⟨n, _, hn⟩ := List.mem_map.mp he1
    exact Or.inl ⟨1 + n, hn.symm⟩
  · rcases List.mem_cons.mp he1 with rfl | he2
    · exact Or.inr (Or.inr ⟨d, rfl⟩)
    · rcases hrest e he2 with htag | hagg
      · cases e with
        | callBatch g' i' => simp [Event.tag] at htag
        | callGameAgg g' => simp [Event.tag] at htag
        | callOverall => simp [Event.tag] at htag
        | save d' => exact Or.inr (Or.inr ⟨d', rfl⟩)
      · exact Or.inr (Or.inl hagg)

theorem process_games_overall (env : OEnv) (B : Nat)
    (games : List (String × List String)) :
    ∀ (rem : List String) (k : Nat) (doc : CombinedProfiles)
      (gps : List GameProfile) (t : Nat),
      (process_games env B games k rem doc gps t).doc.overall_profile =
        doc.overall_profile := by
  intro rem
  induction rem with
  | nil =>
    intro k doc gps t
    rfl
  | cons g rest ih =>
    intro k doc gps t
    simp only [process_games]
    rw [ih]
    exact process_one_game_doc_preserves env B games k doc gps t g

theorem process_games_event_mem (env : OEnv) (B : Nat)
    (games : List (String × List String)) :
    ∀ (rem : List String) (k : Nat) (doc : CombinedProfiles)
      (gps : List GameProfile) (t : Nat) (e : Event),
      e ∈ (process_games env B games k rem doc gps t).events →
      (∃ h i, h ∈ rem ∧ e = Event.callBatch h i) ∨
      (∃ h, h ∈ rem ∧ e = Event.callGameAgg h) ∨
      (∃ d, e = Event.save d) := by
  intro rem
  induction rem with
  | nil =>
    intro k doc gps t e he
    simp [process_games] at he
  | cons g rest ih =>
    intro k doc gps t e he
    simp only [process_games] at he
    rcases List.mem_append.mp he with he1 | he1
    · rcases process_one_game_event_mem env B games k doc gps t g e he1 with
        ⟨i, rfl⟩ | rfl | ⟨d, rfl⟩
      · exact Or.inl ⟨g, i, List.mem_cons_self _ _, rfl⟩
      · exact Or.inr (Or.inl ⟨g, List.mem_cons_self _ _, rfl⟩)
      · exact Or.inr (Or.inr ⟨d, rfl⟩)
    · rcases ih _ _ _ _ e he1 with ⟨h, i, hh, rfl⟩ | ⟨h, hh, rfl⟩ | hd
      · exact Or.inl ⟨h, i, List.mem_cons_of_mem _ hh, rfl⟩
      · exact Or.inr (Or.inl ⟨h, List.mem_cons_of_mem _ hh, rfl⟩)
      · exact Or.inr (Or.inr hd)

theorem process_games_covers (env : OEnv) (B : Nat)
    (games : List (String × List String)) :
    ∀ (rem : List String) (k : Nat) (doc : CombinedProfiles)
      (gps : List GameProfile) (t : Nat) (g : String) (n : Nat),
      g ∈ rem → n < (split_into_batches B (groupGet games g)).length →
      Event.callBatch g (1 + n) ∈
        (process_games env B games k rem doc gps t).events := by
  intro rem
  induction rem with
  | nil =>
    intro k doc gps t g n hg
    simp at hg
  | cons h rest ih =>
    intro k doc gps t g n hg hn
    simp only [process_games]
    rcases List.mem_cons.mp hg with rfl | hg1
    · apply List.mem_append_left
      obtain ⟨d, rest', hev, _, _⟩ :=
        process_one_game_events_shape env B games k doc gps t g
      rw [hev]
      apply List.mem_append_left
      exact List.mem_map.mpr ⟨n, List.mem_range.mpr hn, rfl⟩
    · exact List.mem_append_right _ (ih _ _ _ _ g n hg1 hn)

theorem process_games_stored (env : OEnv) (B : Nat)
    (games : List (String × List String)) :
    ∀ (rem : List String) (k : Nat) (doc : CombinedProfiles)
      (gps : List GameProfile) (t : Nat) (q : String × GameProfile),
      q ∈ (process_games env B games k rem doc gps t).doc.game_profiles →
      q ∈ doc.game_profiles ∨ q.2.status = "success" := by
  intro rem
  induction rem with
  | nil =>
    intro k doc gps t q hq
    exact Or.inl hq
  | cons g rest ih =>
    intro k doc gps t q hq
    simp only [process_games] at hq
    rcases ih _ _ _ _ q hq with hq1 | hs
    · rcases process_one_game_game_profiles env B games k doc gps t g with
        h | ⟨p, hp, h⟩
      · rw [h] at hq1
        exact Or.inl hq1
      · rw [h] at hq1
        rcases dictInsert_mem _ _ _ q hq1 with hq2 | rfl
        · exact Or.inl hq2
        · exact Or.inr hp
    · exact Or.inr hs

/-! ### Claims C10 and C3 -/

/-- C10: only success-status profiles are ever stored in the checkpoint's
entity-profiles map (a failed aggregation writes no entry for its entity),
and in any run whose starting document does not list an entity — in
particular after a failed aggregation — every batch of that entity is
processed from scratch: the trace carries one batch oracle call per batch
index. -/
theorem C10_only_success_stored :
    (∀ (env : OEnv) (B : Nat) (games : List (String × List String))
        (rem : List String) (k : Nat) (doc : CombinedProfiles)
        (gps : List GameProfile) (t : Nat) (q : String × GameProfile),
      q ∈ (process_games env B games k rem doc gps t).doc.game_profiles →
      q ∈ doc.game_profiles ∨ q.2.status = "success") ∧
    (∀ (env : OEnv) (store : List (String × CombinedProfiles))
        (init : CombinedProfiles) (file : String) (cols : List String)
        (rows : List Row) (B : Nat) (games : List (String × List String))
        (g : String),
      load_and_group_data cols rows = Except.ok games →
      games ≠ [] →
      g ∈ games.map Prod.fst →
      g ∉ (resumed_doc store init file).game_profiles.map Prod.fst →
      ∀ n, n < (split_into_batches B (groupGet games g)).length →
        Event.callBatch g (1 + n) ∈
          (analyze_user_profiles env store init file cols rows B).events) := by
  constructor
  · intro env B games rem k doc gps t q hq
    exact process_games_stored env B games rem k doc gps t q hq
  · intro env store init file cols rows B games g hgroup hne hg hnotin n hn
    have hemp : games.isEmpty = false := by simpa [List.isEmpty_iff] using hne
    simp only [analyze_user_profiles, hgroup, hemp, Bool.false_eq_true, if_false]
    apply List.mem_append_left
    apply List.mem_append_right
    apply process_games_covers env B games _ _ _ _ _ g n _ hn
    apply List.mem_filter.mpr
    refine ⟨hg, ?_⟩
    simpa using hnotin

/-- C3 counterexample: `partialDoneDoc` — produced by the pipeline itself
when entity `"h"`'s only batch failed — has the global profile present and
the session completed (the claim's DONE state) and is the checkpoint that
resumption selects for the same source file, yet re-running the pipeline
performs a batch oracle call for `"h"` and does not leave the document
unchanged. -/
theorem C3_done_state_rerun_calls_oracle :
    partialDoneDoc.overall_profile.isSome ∧
    partialDoneDoc.session_info.status = "completed" ∧
    load_existing_session "a.xlsx"
      [("combined_profiles_20250102_000000.json", partialDoneDoc)] =
      some ("combined_profiles_20250102_000000.json", partialDoneDoc) ∧
    Event.callBatch "h" 1 ∈
      (analyze_user_profiles okEnv
        [("combined_profiles_20250102_000000.json", partialDoneDoc)] initDoc
        "a.xlsx" reqCols
        [⟨some "g", some "r"⟩, ⟨some "h", some "r"⟩] 20).events ∧
    (analyze_user_profiles okEnv
      [("combined_profiles_20250102_000000.json", partialDoneDoc)] initDoc
      "a.xlsx" reqCols
      [⟨some "g", some "r"⟩, ⟨some "h", some "r"⟩] 20).doc ≠
      partialDoneDoc := by
  refine ⟨by decide, by decide, by decide, by decide, by decide⟩

/-- C3 (amended): re-running with the checkpoint document that resumption
selects (the most recent file, whose recorded source file equals the input
path) performs zero oracle calls — every trace event is a persist — and
leaves the document's contents unchanged, provided the document is DONE
(overall profile present, session completed) AND its entity-profiles map
already contains every entity of the grouped source data with a consistent
entity count; a DONE document can lack an entity whose aggregation failed,
and re-running then re-processes exactly the missing entities. -/
theorem C3_done_idempotent (env : OEnv)
    (store : List (String × CombinedProfiles)) (init : CombinedProfiles)
    (file : String) (cols : List String) (rows : List Row) (B : Nat)
    (name : String) (d : CombinedProfiles)
    (games : List (String × List String)) (op : OverallProfile)
    (hload : load_existing_session file store = some (name, d))
    (hgroup : load_and_group_data cols rows = Except.ok games)
    (hne : games ≠ [])
    (hover : d.overall_profile = some op)
    (hstatus : d.session_info.status = "completed")
    (hcover : ∀ g ∈ games.map Prod.fst, g ∈ d.game_profiles.map Prod.fst)
    (htg : d.statistics.total_games = games.length) :
    (analyze_user_profiles env store init file cols rows B).doc = d ∧
    ∀ e ∈ (analyze_user_profiles env store init file cols rows B).events,
      Event.tag e = ETag.save := by
  have hfile : d.session_info.excel_file = some file := by
    unfold load_existing_session at hload
    split at hload
    · exact absurd hload (by simp)
    · rename_i nm dd hl2
      split at hload
      · rename_i hcond
        obtain ⟨h1, h2⟩ : nm = name ∧ dd = d := by simpa using hload
        rw [← h2]
        exact hcond
      · exact absurd hload (by simp)
  have hD : resumed_doc store init file = d := by
    unfold resumed_doc
    rw [hload]
  have hdoc12 :
      ({ session_info :=
           { timestamp := d.session_info.timestamp, model := d.session_info.model,
             batch_size := d.session_info.batch_size, status := d.session_info.status,
             excel_file := some file },
         statistics :=
           { total_games := games.length, total_reviews := d.statistics.total_reviews,
             completed_games := d.statistics.completed_games,
             total_processing_time := d.statistics.total_processing_time },
         game_profiles := d.game_profiles, overall_profile := d.overall_profile,
         batch_results := d.batch_results } : CombinedProfiles) = d := by
    obtain ⟨si, st, gp, ov, br⟩ := d
    obtain ⟨ts, md, bsz, stt, exf⟩ := si
    obtain ⟨tg, trv, cg, tpt⟩ := st
    have h1 : exf = some file := hfile
    have h2 : tg = games.length := htg
    dsimp only
    rw [h1, h2]
  have hrem : (games.map Prod.fst).filter
      (fun g => !((d.game_profiles.map Prod.fst).contains g)) = [] := by
    apply List.filter_eq_nil_iff.mpr
    intro g hg
    have hx := hcover g hg
    simp at hx ⊢
    exact hx
  have hemp : games.isEmpty = false := by simpa [List.isEmpty_iff] using hne
  have hfin : finish_run env
      { doc := d, gps := d.game_profiles.map Prod.snd, k := 0,
        time := d.statistics.total_processing_time, events := [] } =
      (d, [Event.save d]) := by
    unfold finish_run
    split
    · rename_i heq
      rw [hover] at heq
      exact absurd heq (by simp)
    · rfl
  constructor
  · simp only [analyze_user_profiles, hD, hgroup, hemp, Bool.false_eq_true,
      if_false, hrem, process_games]
    rw [hdoc12, hfin]
  · intro e he
    simp only [analyze_user_profiles, hD, hgroup, hemp, Bool.false_eq_true,
      if_false, hrem, process_games] at he
    rw [hdoc12, hfin] at he
    simp at he
    rcases he with rfl | rfl | rfl <;> rfl

theorem C3_done_idempotent_witness :
    (analyze_user_profiles okEnv
      [("combined_profiles_20250101_000000.json", doneDoc)] initDoc "a.xlsx"
      reqCols [⟨some "g", some "r"⟩] 2).doc = doneDoc :=
  (C3_done_idempotent okEnv
    [("combined_profiles_20250101_000000.json", doneDoc)] initDoc "a.xlsx"
    reqCols [⟨some "g", some "r"⟩] 2 "combined_profiles_20250101_000000.json" doneDoc
    [("g", ["r"])] doneOverall (by decide) rfl (by decide) (by decide)
    (by decide) (by simp [doneDoc, doneProfile]) (by decide)).1

/-! ### Claim C4: batch results are appended twice per batch -/

/-- C4: processing a fresh session with one entity of one batch leaves TWO
copies of the single batch result in the checkpoint's batch-result list —
the per-batch loop appends each result through the `all_batch_results` alias
of `combined_profiles['batch_results']`, and `save_batch_results` then
`extend`s the same list with the same results again. -/
theorem C4_batch_result_appended_twice :
    (analyze_user_profiles okEnv [] initDoc "a.xlsx" reqCols
      [⟨some "g", some "r"⟩] 20).doc.batch_results =
      [{ game_name := "g", batch_num := 1, review_count := 1,
         analysis := "resp", processing_time := 0, status := "success" },
       { game_name := "g", batch_num := 1, review_count := 1,
         analysis := "resp", processing_time := 0, status := "success" }] := by
  decide

/-! ### Claim C1: persistence is per entity, not per batch -/

/-- C1 counterexample: one entity with two batches — the trace has the two
batch oracle calls back to back with no persist between them, so a batch
result is not persisted before the next batch's oracle call begins. -/
theorem C1_no_persist_between_batches :
    ¬ batchPersistedImmediately
      ((analyze_user_profiles okEnv [] initDoc "a.xlsx" reqCols
        [⟨some "g", some "r1"⟩, ⟨some "g", some "r2"⟩] 1).events.map Event.tag) := by
  intro h
  have he : (analyze_user_profiles okEnv [] initDoc "a.xlsx" reqCols
      [⟨some "g", some "r1"⟩, ⟨some "g", some "r2"⟩] 1).events.map Event.tag =
      [ETag.save, ETag.save, ETag.callBatch "g" 1, ETag.callBatch "g" 2,
       ETag.save, ETag.callGameAgg "g", ETag.save, ETag.save,
       ETag.callOverall, ETag.save, ETag.save] := by decide
  have hx := h [ETag.save, ETag.save] []
    [ETag.save, ETag.callGameAgg "g", ETag.save, ETag.save, ETag.callOverall,
     ETag.save, ETag.save] "g" 1 2 (by rw [he]; rfl)
  simp at hx

/-- C1 (amended): each batch result is appended to the in-memory document at
once, but persisted only once per entity: an entity's iteration is exactly
its batch oracle calls (no persist between them) followed by one persist of a
document holding a result for every one of its batches, then only
aggregation-call and persist events; the loop concatenates the per-entity
segments in order, so that persist precedes every later entity's events. -/
theorem C1_persist_once_per_entity :
    (∀ (env : OEnv) (B : Nat) (games : List (String × List String)) (k : Nat)
        (doc : CombinedProfiles) (gps : List GameProfile) (t : Nat) (g : String),
      ∃ d rest,
        (process_one_game env B games k doc gps t g).events =
          (List.range (split_into_batches B (groupGet games g)).length).map
            (fun n => Event.callBatch g (1 + n)) ++ Event.save d :: rest ∧
        (∀ n, n < (split_into_batches B (groupGet games g)).length →
          ∃ r, r ∈ d.batch_results ∧ r.game_name = g ∧ r.batch_num = 1 + n) ∧
        (∀ e ∈ rest, Event.tag e = ETag.save ∨ e = Event.callGameAgg g)) ∧
    (∀ (env : OEnv) (B : Nat) (games : List (String × List String)) (k : Nat)
        (doc : CombinedProfiles) (gps : List GameProfile) (t : Nat)
        (g : String) (rest : List String),
      (process_games env B games k (g :: rest) doc gps t).events =
        (process_one_game env B games k doc gps t g).events ++
        (process_games env B games
          (process_one_game env B games k doc gps t g).k rest
          (process_one_game env B games k doc gps t g).doc
          (process_one_game env B games k doc gps t g).gps
          (process_one_game env B games k doc gps t g).time).events) := by
  constructor
  · exact process_one_game_events_shape
  · intro env B games k doc gps t g rest
    rfl

/-! ### Claim C2: resumption considers only the newest checkpoint file -/

/-- C2 counterexample: the store contains a DONE checkpoint whose recorded
source file equals the input path `"a.xlsx"` and which lists entity `"g"`,
yet resumption selects nothing (the single newest file is for `"b.xlsx"`),
and the run re-invokes the batch oracle for `"g"`. -/
theorem C2_older_matching_checkpoint_ignored :
    ("combined_profiles_20250101_000000.json", doneDoc) ∈ storeTwo ∧
    doneDoc.session_info.excel_file = some "a.xlsx" ∧
    "g" ∈ doneDoc.game_profiles.map Prod.fst ∧
    load_existing_session "a.xlsx" storeTwo = none ∧
    Event.callBatch "g" 1 ∈
      (analyze_user_profiles okEnv storeTwo initDoc "a.xlsx" reqCols
        [⟨some "g", some "r"⟩] 20).events := by
  refine ⟨by decide, by decide, by decide, by decide, by decide⟩

theorem finish_run_events (env : OEnv) (pout : StepOut) :
    ∀ e ∈ (finish_run env pout).2,
      e = Event.callOverall ∨ Event.tag e = ETag.save := by
  unfold finish_run
  split
  · dsimp only
    split
    · intro e he
      simp only [List.append_assoc, List.mem_append] at he
      rcases he with h1 | h1 | h1
      · exact Or.inl (generate_overall_profile_events _ _ _ e h1)
      · exact Or.inr (update_session_progress_events_tag _ _ _ e h1)
      · simp at h1
        subst h1
        exact Or.inr rfl
    · intro e he
      simp only [List.mem_append] at he
      rcases he with h1 | h1
      · exact Or.inl (generate_overall_profile_events _ _ _ e h1)
      · simp at h1
        subst h1
        exact Or.inr rfl
  · intro e he
    simp at he
    subst he
    exact Or.inr rfl

theorem finish_run_events_of_some (env : OEnv) (pout : StepOut)
    (h : pout.doc.overall_profile.isSome) :
    ∀ e ∈ (finish_run env pout).2, Event.tag e = ETag.save := by
  unfold finish_run
  split
  · rename_i heq
    rw [heq] at h
    simp at h
  · intro e he
    simp at he
    subst he
    rfl

/-- C2 (amended): resumption examines only the single most recently created
checkpoint file: it is reused iff its recorded source file equals the current
input path — entities already in its profiles map are skipped with zero
oracle calls, and the Global Aggregator is skipped when its global profile is
present — and in every other case (including when an older checkpoint file
matches the input path) the fresh empty document is used. -/
theorem C2_resumption_newest_only :
    (∀ (file : String) (store : List (String × CombinedProfiles)) (n : String)
        (d : CombinedProfiles),
      latest_checkpoint store = some (n, d) →
      load_existing_session file store =
        (if d.session_info.excel_file = some file then some (n, d) else none)) ∧
    (∀ (file : String) (store : List (String × CombinedProfiles)),
      latest_checkpoint store = none → load_existing_session file store = none) ∧
    (∀ (store : List (String × CombinedProfiles)) (init : CombinedProfiles)
        (file : String),
      load_existing_session file store = none →
      resumed_doc store init file = init) ∧
    (∀ (env : OEnv) (store : List (String × CombinedProfiles))
        (init : CombinedProfiles) (file : String) (cols : List String)
        (rows : List Row) (B : Nat) (g : String),
      g ∈ (resumed_doc store init file).game_profiles.map Prod.fst →
      (∀ i, Event.callBatch g i ∉
        (analyze_user_profiles env store init file cols rows B).events) ∧
      Event.callGameAgg g ∉
        (analyze_user_profiles env store init file cols rows B).events) ∧
    (∀ (env : OEnv) (store : List (String × CombinedProfiles))
        (init : CombinedProfiles) (file : String) (cols : List String)
        (rows : List Row) (B : Nat),
      (resumed_doc store init file).overall_profile.isSome →
      Event.callOverall ∉
        (analyze_user_profiles env store init file cols rows B).events) := by
  refine ⟨?_, ?_, ?_, ?_, ?_⟩
  · intro file store n d hl
    unfold load_existing_session
    rw [hl]
  · intro file store hl
    unfold load_existing_session
    rw [hl]
  · intro store init file hl
    unfold resumed_doc
    rw [hl]
  · intro env store init file cols rows B g hg
    constructor
    · intro i hmem
      rcases hgr : load_and_group_data cols rows with e | games
      · simp only [analyze_user_profiles, hgr] at hmem
        simp at hmem
      · by_cases hemp : games.isEmpty
        · simp only [analyze_user_profiles, hgr, hemp, if_true] at hmem
          simp at hmem
        · rw [Bool.not_eq_true] at hemp
          simp only [analyze_user_profiles, hgr, hemp, Bool.false_eq_true,
            if_false] at hmem
          rcases List.mem_append.mp hmem with h1 | h1
          · rcases List.mem_append.mp h1 with h2 | h2
            · simp at h2
            · rcases process_games_event_mem env B games _ _ _ _ _ _ h2 with
                ⟨h', i', hh, heq⟩ | ⟨h', hh, heq⟩ | ⟨d, heq⟩
              · cases heq
                have hnot := (List.mem_filter.mp hh).2
                simp at hnot
                obtain ⟨p, hp⟩ : ∃ x,
                    (g, x) ∈ (resumed_doc store init file).game_profiles := by
                  simpa using hg
                exact hnot p hp
              · cases heq
              · cases heq
          · rcases finish_run_events env _ (Event.callBatch g i) h1 with h2 | h2
            · cases h2
            · simp [Event.tag] at h2
    · intro hmem
      rcases hgr : load_and_group_data cols rows with e | games
      · simp only [analyze_user_profiles, hgr] at hmem
        simp at hmem
      · by_cases hemp : games.isEmpty
        · simp only [analyze_user_profiles, hgr, hemp, if_true] at hmem
          simp at hmem
        · rw [Bool.not_eq_true] at hemp
          simp only [analyze_user_profiles, hgr, hemp, Bool.false_eq_true,
            if_false] at hmem
          rcases List.mem_append.mp hmem with h1 | h1
          · rcases List.mem_append.mp h1 with h2 | h2
            · simp at h2
            · rcases process_games_event_mem env B games _ _ _ _ _ _ h2 with
                ⟨h', i', hh, heq⟩ | ⟨h', hh, heq⟩ | ⟨d, heq⟩
              · cases heq
              · cases heq
                have hnot := (List.mem_filter.mp hh).2
                simp at hnot
                obtain ⟨p, hp⟩ : ∃ x,
                    (g, x) ∈ (resumed_doc store init file).game_profiles := by
                  simpa using hg
                exact hnot p hp
              · cases heq
          · rcases finish_run_events env _ (Event.callGameAgg g) h1 with h2 | h2
            · cases h2
            · simp [Event.tag] at h2
  · intro env store init file cols rows B hov hmem
    rcases hgr : load_and_group_data cols rows with e | games
    · simp only [analyze_user_profiles, hgr] at hmem
      simp at hmem
    · by_cases hemp : games.isEmpty
      · simp only [analyze_user_profiles, hgr, hemp, if_true] at hmem
        simp at hmem
      · rw [Bool.not_eq_true] at hemp
        simp only [analyze_user_profiles, hgr, hemp, Bool.false_eq_true,
          if_false] at hmem
        rcases List.mem_append.mp hmem with h1 | h1
        · rcases List.mem_append.mp h1 with h2 | h2
          · simp at h2
          · rcases process_games_event_mem env B games _ _ _ _ _ _ h2 with
              ⟨h', i', hh, heq⟩ | ⟨h', hh, heq⟩ | ⟨d, heq⟩
            · cases heq
            · cases heq
            · cases heq
        · have hsome : (process_games env B games 0
              ((games.map Prod.fst).filter (fun g =>
                !(((resumed_doc store init file).game_profiles.map
                  Prod.fst).contains g)))
              { resumed_doc store init file with
                session_info := { (resumed_doc store init file).session_info with
                  excel_file := some file },
                statistics := { (resumed_doc store init file).statistics with
                  total_games := games.length } }
              ((resumed_doc store init file).game_profiles.map Prod.snd)
              (resumed_doc store init file).statistics.total_processing_time
              ).doc.overall_profile.isSome := by
            rw [process_games_overall]
            exact hov
          have := finish_run_events_of_some env _ hsome Event.callOverall h1
          simp [Event.tag] at this

end GameInsight
